import Mathlib

/-!
Verification of the image-captioning preprocessing / postprocessing pipeline
(`src/image_captioning/train.py` and `src/image_captioning/predict.py`).

Token ids are modelled as `Int` (the ignore sentinel is the negative value
-100).  A tokenizer is modelled by its raw encoding function
`encode : String → List Int` together with its optional pad-token id and its
end-of-sequence token id; the HuggingFace tokenizer call with
`truncation=True` truncates the raw encoding to `max_length`, and with
`padding="max_length"` additionally right-pads with the pad token id.
-/

namespace ImageCaptioning

/-- Ignore sentinel used by the loss function (`-100`, the default
`ignore_index` of `torch.nn.CrossEntropyLoss`). -/
def ignoreIndex : Int := -100

/-- Tokenizer call with `truncation=True`, `max_length=maxLen` and
`padding="max_length"`: truncate the raw encoding to `maxLen` tokens, then
right-pad with the pad token id up to `maxLen`. -/
def tokenizeMaxLength (encode : String → List Int) (padTokenId : Int)
    (maxLen : Nat) (caption : String) : List Int :=
  let ids := (encode caption).take maxLen
  ids ++ List.replicate (maxLen - ids.length) padTokenId

/-- Tokenizer call with `truncation=True`, `max_length=maxLen` and
`padding="do_not_pad"`: truncate the raw encoding to `maxLen` tokens. -/
def tokenizeDoNotPad (encode : String → List Int) (maxLen : Nat)
    (caption : String) : List Int :=
  (encode caption).take maxLen

/-- Pad-token branch of `preprocess_function`
(`predict.py` lines 50-61, `train.py` lines 58-69): tokenize with
`padding="max_length"`, then replace every position equal to
`tokenizer.pad_token_id` with the ignore sentinel
(`encoded.input_ids[encoded.input_ids == tokenizer.pad_token_id] = -100`). -/
def labelsWithPad (encode : String → List Int) (padTokenId : Int)
    (maxLen : Nat) (caption : String) : List Int :=
  (tokenizeMaxLength encode padTokenId maxLen caption).map
    (fun t => if t = padTokenId then ignoreIndex else t)

/-- No-pad-token branch of `preprocess_function`
(`predict.py` lines 62-66, `train.py` lines 70-74): tokenize with
`padding="do_not_pad"`, then right-pad each id list with the ignore sentinel
(`input_ids + ([-100] * (args.max_sequence_length - len(input_ids)))`). -/
def labelsNoPad (encode : String → List Int) (maxLen : Nat)
    (caption : String) : List Int :=
  let input_ids := tokenizeDoNotPad encode maxLen caption
  input_ids ++ List.replicate (maxLen - input_ids.length) ignoreIndex

/-- Label part of `preprocess_function` for one caption:
`do_padding = False if tokenizer.pad_token_id is None else True` selects the
branch. -/
def preprocessLabels (encode : String → List Int) (padTokenId? : Option Int)
    (maxLen : Nat) (caption : String) : List Int :=
  match padTokenId? with
  | some p => labelsWithPad encode p maxLen caption
  | none => labelsNoPad encode maxLen caption

/-- Batched `labels` output of `preprocess_function`
(`predict.py` lines 42-71, `train.py` lines 50-79): one label sequence per
caption in the batch. -/
def preprocess_function (encode : String → List Int) (padTokenId? : Option Int)
    (maxLen : Nat) (captions : List String) : List (List Int) :=
  captions.map (preprocessLabels encode padTokenId? maxLen)

theorem labelsWithPad_length (encode : String → List Int) (padTokenId : Int)
    (maxLen : Nat) (caption : String) :
    (labelsWithPad encode padTokenId maxLen caption).length = maxLen := by
  simp only [labelsWithPad, tokenizeMaxLength, List.length_map,
    List.length_append, List.length_replicate, List.length_take]
  omega

theorem labelsNoPad_length (encode : String → List Int) (maxLen : Nat)
    (caption : String) :
    (labelsNoPad encode maxLen caption).length = maxLen := by
  simp only [labelsNoPad, tokenizeDoNotPad, List.length_append,
    List.length_replicate, List.length_take]
  omega

theorem preprocessLabels_length (encode : String → List Int)
    (padTokenId? : Option Int) (maxLen : Nat) (caption : String) :
    (preprocessLabels encode padTokenId? maxLen caption).length = maxLen := by
  cases padTokenId? with
  | some p => exact labelsWithPad_length encode p maxLen caption
  | none => exact labelsNoPad_length encode maxLen caption

/-- C1: for every batch of captions given to `preprocess_function` and every
example in that batch, the returned `labels` sequence has length exactly
`max_sequence_length`, in both the pad-token branch and the no-pad-token
branch. -/
theorem preprocess_labels_length (encode : String → List Int)
    (padTokenId? : Option Int) (maxLen : Nat) (captions : List String) :
    ∀ labels ∈ preprocess_function encode padTokenId? maxLen captions,
      labels.length = maxLen := by
  intro labels hmem
  simp only [preprocess_function, List.mem_map] at hmem
  obtain ⟨caption, _, rfl⟩ := hmem
  exact preprocessLabels_length encode padTokenId? maxLen caption

/-- Witness for C1: a concrete two-caption batch with `maxLen = 5` and a
tokenizer without pad token; the row preprocessed from "ab" has length 5. -/
theorem preprocess_labels_length_witness :
    (preprocessLabels (fun s => (List.range s.length).map Int.ofNat) none 5
      "ab").length = 5 :=
  preprocess_labels_length
    (fun s => (List.range s.length).map Int.ofNat) none 5 ["ab", "abcdefg"]
    (preprocessLabels (fun s => (List.range s.length).map Int.ofNat) none 5
      "ab")
    (by decide)

/-- C2: in the no-pad-token branch, the caption is tokenized without padding
(truncating to `max_sequence_length`) and the id list is right-padded with
the ignore sentinel -100 up to `max_sequence_length`; for
`max_sequence_length = 6` and an encoded caption of 4 real tokens the result
is the 4 token ids followed by exactly two -100 entries. -/
theorem labelsNoPad_pads_with_sentinel (encode : String → List Int)
    (caption : String) (h4 : (encode caption).length = 4) :
    preprocessLabels encode none 6 caption =
      encode caption ++ [ignoreIndex, ignoreIndex] := by
  simp only [preprocessLabels, labelsNoPad, tokenizeDoNotPad]
  rw [List.take_of_length_le (by omega)]
  rw [h4]
  rfl

/-- Witness for C2: a concrete encoder producing 4 tokens for the caption
"abcd"; the resulting labels are those 4 ids followed by two -100 entries. -/
theorem labelsNoPad_pads_with_sentinel_witness :
    preprocessLabels (fun s => (List.range s.length).map Int.ofNat) none 6
        "abcd" =
      (fun s => (List.range s.length).map Int.ofNat) "abcd" ++
        [ignoreIndex, ignoreIndex] :=
  labelsNoPad_pads_with_sentinel
    (fun s => (List.range s.length).map Int.ofNat) "abcd" (by decide)

/-- C3: in the pad-token branch, the token ids are padded/truncated to
`max_sequence_length` and every pad-token position is replaced by -100, so no
position of the returned labels holds the pad token id and every trailing
(padding) position equals -100. -/
theorem labelsWithPad_no_pad_token (encode : String → List Int)
    (padTokenId : Int) (maxLen : Nat) (caption : String)
    (hpad : padTokenId ≠ ignoreIndex) :
    (∀ t ∈ preprocessLabels encode (some padTokenId) maxLen caption,
        t ≠ padTokenId) ∧
    (∀ i : Nat, ((encode caption).take maxLen).length ≤ i → i < maxLen →
      (preprocessLabels encode (some padTokenId) maxLen caption).getD i 0 =
        ignoreIndex) := by
  constructor
  · intro t hmem
    simp only [preprocessLabels, labelsWithPad, List.mem_map] at hmem
    obtain ⟨u, _, rfl⟩ := hmem
    by_cases hu : u = padTokenId
    · simp [hu]
      exact fun h => hpad h.symm
    · simp [hu]
  · intro i hle hlt
    simp only [preprocessLabels, labelsWithPad, tokenizeMaxLength]
    have hi : i - ((encode caption).take maxLen).length <
        maxLen - ((encode caption).take maxLen).length := by omega
    rw [List.getD_eq_getElem?_getD, List.getElem?_map, List.getElem?_append_right
      (by simpa using hle)]
    simp only [List.getElem?_replicate]
    rw [if_pos (by simpa using hi)]
    simp

/-- Witness for C3: concrete encoder, pad id 0, `maxLen = 6`; the first
returned label is not the pad id and the trailing padding position 4 holds
-100. -/
theorem labelsWithPad_no_pad_token_witness :
    (preprocessLabels
        (fun s => (List.range s.length).map (fun n => Int.ofNat (n + 1)))
        (some 0) 6 "abcd").getD 0 0 ≠ 0 ∧
    (preprocessLabels
        (fun s => (List.range s.length).map (fun n => Int.ofNat (n + 1)))
        (some 0) 6 "abcd").getD 4 0 = ignoreIndex :=
  ⟨(labelsWithPad_no_pad_token
      (fun s => (List.range s.length).map (fun n => Int.ofNat (n + 1)))
      0 6 "abcd" (by decide)).1
      ((preprocessLabels
        (fun s => (List.range s.length).map (fun n => Int.ofNat (n + 1)))
        (some 0) 6 "abcd").getD 0 0) (by decide),
   (labelsWithPad_no_pad_token
      (fun s => (List.range s.length).map (fun n => Int.ofNat (n + 1)))
      0 6 "abcd" (by decide)).2 4 (by decide) (by decide)⟩

/-- Replacement value chosen for sentinel positions before decoding
(`predict.py` lines 125-129, `train.py` lines 149-153): the pad token id if
the tokenizer defines one, otherwise the end-of-sequence token id. -/
def sentinelReplacement (padTokenId? : Option Int) (eosTokenId : Int) : Int :=
  match padTokenId? with
  | some p => p
  | none => eosTokenId

/-- Sentinel replacement over one reference label sequence
(`label_ids[label_ids == -100] = ...` in `predict.py` lines 124-129 and
`train.py` lines 149-153). -/
def replaceSentinel (padTokenId? : Option Int) (eosTokenId : Int)
    (labelIds : List Int) : List Int :=
  labelIds.map (fun t =>
    if t = ignoreIndex then sentinelReplacement padTokenId? eosTokenId else t)

/-- Model of `tokenizer.batch_decode(..., skip_special_tokens=True)` on one
id sequence: special-token ids are dropped and the remaining tokens are
detokenized (concatenation of per-token text). -/
def decodeSkipSpecial (specialIds : List Int) (tokenText : Int → String)
    (ids : List Int) : String :=
  String.join ((ids.filter (fun t => decide (t ∉ specialIds))).map tokenText)

/-- C4: every ignore-sentinel position of a reference label sequence is
replaced before decoding — by the pad token id when the tokenizer has one,
otherwise by the end-of-sequence token id — and decoding skips special
tokens, so every token whose text enters the decoded reference string is a
non-special token. -/
theorem replaceSentinel_decode (padTokenId? : Option Int) (eosTokenId : Int)
    (specialIds : List Int) (tokenText : Int → String) (labelIds : List Int)
    (hrep : sentinelReplacement padTokenId? eosTokenId ≠ ignoreIndex) :
    (∀ t ∈ replaceSentinel padTokenId? eosTokenId labelIds,
        t ≠ ignoreIndex) ∧
    (∀ t ∈ (replaceSentinel padTokenId? eosTokenId labelIds).filter
        (fun u => decide (u ∉ specialIds)), t ∉ specialIds) ∧
    decodeSkipSpecial specialIds tokenText
        (replaceSentinel padTokenId? eosTokenId labelIds) =
      String.join
        (((replaceSentinel padTokenId? eosTokenId labelIds).filter
          (fun u => decide (u ∉ specialIds))).map tokenText) := by
  refine ⟨?_, ?_, rfl⟩
  · intro t hmem
    simp only [replaceSentinel, List.mem_map] at hmem
    obtain ⟨u, _, rfl⟩ := hmem
    by_cases hu : u = ignoreIndex
    · simpa [hu] using hrep
    · simp [hu]
  · intro t hmem
    rw [List.mem_filter] at hmem
    simpa using hmem.2

/-- Witness for C4: pad token id 0, eos id 2, specials `[0, 2]`, a label
sequence containing the sentinel: the value at a sentinel position after
replacement is not -100, and decoding equals the detokenization of the
non-special tokens only. -/
theorem replaceSentinel_decode_witness :
    (replaceSentinel (some 0) 2 [5, 7, -100, -100]).getD 2 0 ≠
      ignoreIndex ∧
    decodeSkipSpecial [(0 : Int), 2] (fun _ => "x")
        (replaceSentinel (some 0) 2 [5, 7, -100, -100]) =
      String.join
        (((replaceSentinel (some 0) 2 [5, 7, -100, -100]).filter
          (fun u => decide (u ∉ [(0 : Int), 2]))).map (fun _ => "x")) :=
  ⟨(replaceSentinel_decode (some 0) 2 [(0 : Int), 2] (fun _ => "x")
      [5, 7, -100, -100] (by decide)).1
      ((replaceSentinel (some 0) 2 [5, 7, -100, -100]).getD 2 0)
      (by decide),
   (replaceSentinel_decode (some 0) 2 [(0 : Int), 2] (fun _ => "x")
      [5, 7, -100, -100] (by decide)).2.2⟩

/-- Per-position values of `torch.nn.CrossEntropyLoss(reduction="none")`
with its default `ignore_index = -100`: positions whose target equals the
ignore index get loss 0, other positions get the cross-entropy `ce` of their
logit row against the target. `ce` abstracts the real-valued formula. -/
def crossEntropyNoReduction {α : Type} (ce : α → Int → ℚ) (logits : List α)
    (targets : List Int) : List ℚ :=
  List.zipWith (fun l t => if t = ignoreIndex then 0 else ce l t)
    logits targets

/-- Loss computation of `forward_pass_with_label` (`predict.py` lines
131-136): flatten logits and labels across the batch
(`reshape(-1, vocab)` / `view(-1)`), apply
`CrossEntropyLoss(reduction="none")`, reshape back to
`(batch, seqLen)` and sum along the sequence axis (`sum(axis=1)`). -/
def forward_pass_loss {α : Type} (ce : α → Int → ℚ) (seqLen : Nat)
    (logits : List (List α)) (labels : List (List Int)) : List ℚ :=
  (List.range logits.length).map
    (fun i =>
      (((crossEntropyNoReduction ce logits.join labels.join).drop
        (i * seqLen)).take seqLen).sum)

/-- Stated from the spec's words, for comparison with `forward_pass_loss`:
token-level cross-entropy with no reduction computed per example, then
summed over that example's label positions, one scalar per example. -/
def perExampleLossSpec {α : Type} (ce : α → Int → ℚ)
    (logits : List (List α)) (labels : List (List Int)) : List ℚ :=
  List.zipWith
    (fun lrow trow => (crossEntropyNoReduction ce lrow trow).sum)
    logits labels

theorem crossEntropy_join {α : Type} (ce : α → Int → ℚ) (seqLen : Nat)
    (logits : List (List α)) (labels : List (List Int))
    (hlen : logits.length = labels.length)
    (hl : ∀ l ∈ logits, l.length = seqLen)
    (ht : ∀ l ∈ labels, l.length = seqLen) :
    crossEntropyNoReduction ce logits.join labels.join =
      (List.zipWith (fun lrow trow => crossEntropyNoReduction ce lrow trow)
        logits labels).join := by
  induction logits generalizing labels with
  | nil =>
    cases labels with
    | nil => rfl
    | cons tr ts => simp at hlen
  | cons lr ls ih =>
    cases labels with
    | nil => simp at hlen
    | cons tr ts =>
      have hlr : lr.length = tr.length := by
        rw [hl lr (by simp), ht tr (by simp)]
      simp only [List.join_cons, List.zipWith_cons_cons, crossEntropyNoReduction]
      rw [List.zipWith_append _ _ _ _ _ hlr]
      have := ih ts (by simpa using hlen)
        (fun l hmem => hl l (List.mem_cons_of_mem lr hmem))
        (fun l hmem => ht l (List.mem_cons_of_mem tr hmem))
      simp only [crossEntropyNoReduction] at this
      rw [this]

theorem join_drop_take {γ : Type} (seqLen : Nat) (rows : List (List γ))
    (hrows : ∀ r ∈ rows, r.length = seqLen) (i : Nat) :
    ((rows.join.drop (i * seqLen)).take seqLen) = rows.getD i [] := by
  induction rows generalizing i with
  | nil => simp
  | cons r rs ih =>
    have hr : r.length = seqLen := hrows r (by simp)
    cases i with
    | zero =>
      simp only [Nat.zero_mul, List.drop_zero, List.join_cons, List.getD]
      rw [List.take_left' hr]
      rfl
    | succ i =>
      have : (i + 1) * seqLen = r.length + i * seqLen := by
        rw [hr]; ring
      simp only [List.join_cons, this, List.drop_append]
      rw [ih (fun s hmem => hrows s (List.mem_cons_of_mem r hmem)) i]
      rfl

theorem range_map_getD {γ δ : Type} (f : List γ → δ) (l : List (List γ)) :
    (List.range l.length).map (fun i => f (l.getD i [])) = l.map f := by
  induction l with
  | nil => rfl
  | cons a l ih =>
    rw [List.length_cons, List.range_succ_eq_map, List.map_cons,
      List.map_map]
    exact congr_arg₂ List.cons rfl ih

/-- C7: the loss reported per example by `forward_pass_with_label` —
computed by flattening the batch, applying token-level cross-entropy with no
reduction, reshaping to `(batch, seq)` and summing along the sequence axis —
equals the per-example sum of token-level cross-entropy values over that
example's label positions: one scalar per example of the batch. -/
theorem forward_pass_loss_eq_spec {α : Type} (ce : α → Int → ℚ)
    (seqLen : Nat) (logits : List (List α)) (labels : List (List Int))
    (hlen : logits.length = labels.length)
    (hl : ∀ l ∈ logits, l.length = seqLen)
    (ht : ∀ l ∈ labels, l.length = seqLen) :
    forward_pass_loss ce seqLen logits labels =
      perExampleLossSpec ce logits labels ∧
    (forward_pass_loss ce seqLen logits labels).length = logits.length := by
  have hjoin := crossEntropy_join ce seqLen logits labels hlen hl ht
  have hrows : ∀ r ∈ List.zipWith
      (fun lrow trow => crossEntropyNoReduction ce lrow trow) logits labels,
      r.length = seqLen := by
    intro r hmem
    rw [List.mem_iff_get] at hmem
    obtain ⟨n, rfl⟩ := hmem
    rw [List.get_zipWith]
    simp only [crossEntropyNoReduction, List.length_zipWith]
    rw [hl _ (List.get_mem _ _ _), ht _ (List.get_mem _ _ _)]
    exact Nat.min_self seqLen
  constructor
  · simp only [forward_pass_loss, hjoin]
    have hcount : logits.length = (List.zipWith
        (fun lrow trow => crossEntropyNoReduction ce lrow trow)
        logits labels).length := by
      rw [List.length_zipWith, hlen, Nat.min_self]
    rw [hcount]
    have h1 : ∀ i ∈ List.range (List.zipWith
        (fun lrow trow => crossEntropyNoReduction ce lrow trow)
        logits labels).length,
        (((List.zipWith (fun lrow trow => crossEntropyNoReduction ce lrow trow)
          logits labels).join.drop (i * seqLen)).take seqLen).sum =
        ((List.zipWith (fun lrow trow => crossEntropyNoReduction ce lrow trow)
          logits labels).getD i []).sum := by
      intro i _
      rw [join_drop_take seqLen _ hrows i]
    rw [List.map_congr_left h1,
      range_map_getD (fun r => List.sum r)
        (List.zipWith (fun lrow trow => crossEntropyNoReduction ce lrow trow)
          logits labels)]
    simp only [perExampleLossSpec, List.map_zipWith]
  · simp only [forward_pass_loss, List.length_map, List.length_range]

/-- Witness for C7: a concrete 2-example batch with sequence length 3;
hypotheses hold by evaluation and the theorem applies. -/
theorem forward_pass_loss_eq_spec_witness :
    forward_pass_loss (fun (l : Int) t => (l + t : ℚ)) 3
        [[1, 2, 3], [4, 5, 6]] [[7, -100, 8], [9, 10, -100]] =
      perExampleLossSpec (fun (l : Int) t => (l + t : ℚ))
        [[1, 2, 3], [4, 5, 6]] [[7, -100, 8], [9, 10, -100]] ∧
    (forward_pass_loss (fun (l : Int) t => (l + t : ℚ)) 3
        [[1, 2, 3], [4, 5, 6]] [[7, -100, 8], [9, 10, -100]]).length =
      ([[1, 2, 3], [4, 5, 6]] : List (List Int)).length :=
  forward_pass_loss_eq_spec (fun (l : Int) t => (l + t : ℚ)) 3
    [[1, 2, 3], [4, 5, 6]] [[7, -100, 8], [9, 10, -100]]
    (by decide) (by decide) (by decide)

theorem crossEntropy_sum_filter {β : Type} (ce : β → Int → ℚ)
    (lrow : List β) (trow : List Int) :
    (crossEntropyNoReduction ce lrow trow).sum =
      (((lrow.zip trow).filter (fun p => decide (p.2 ≠ ignoreIndex))).map
        (fun p => ce p.1 p.2)).sum := by
  induction lrow generalizing trow with
  | nil => rfl
  | cons l ls ih =>
    cases trow with
    | nil => rfl
    | cons t ts =>
      by_cases ht : t = ignoreIndex
      · simp only [crossEntropyNoReduction, List.zipWith_cons_cons,
          List.sum_cons, if_pos ht, List.zip_cons_cons, List.filter_cons]
        rw [if_neg (by simp [ht]), zero_add]
        exact ih ts
      · simp only [crossEntropyNoReduction, List.zipWith_cons_cons,
          List.sum_cons, if_neg ht, List.zip_cons_cons, List.filter_cons]
        rw [if_pos (by simp [ht]), List.map_cons, List.sum_cons]
        exact congr_arg₂ (· + ·) rfl (ih ts)

theorem replaceSentinel_filter (padTokenId? : Option Int) (eosTokenId : Int)
    (specialIds : List Int) (trow : List Int)
    (hmem : sentinelReplacement padTokenId? eosTokenId ∈ specialIds) :
    (replaceSentinel padTokenId? eosTokenId trow).filter
        (fun u => decide (u ∉ specialIds)) =
      (trow.filter (fun t => decide (t ≠ ignoreIndex))).filter
        (fun u => decide (u ∉ specialIds)) := by
  induction trow with
  | nil => rfl
  | cons t ts ih =>
    simp only [replaceSentinel] at ih ⊢
    simp only [List.map_cons]
    by_cases ht : t = ignoreIndex
    · rw [if_pos ht, List.filter_cons, List.filter_cons,
        if_neg (show ¬ decide
          (sentinelReplacement padTokenId? eosTokenId ∉ specialIds) = true by
            simpa using hmem),
        if_neg (show ¬ decide (t ≠ ignoreIndex) = true by simp [ht]), ih]
    · rw [if_neg ht, List.filter_cons, List.filter_cons,
        if_pos (show decide (t ≠ ignoreIndex) = true by simp [ht]),
        List.filter_cons]
      by_cases hs : t ∈ specialIds
      · rw [if_neg (show ¬ decide (t ∉ specialIds) = true by simpa using hs),
          if_neg (show ¬ decide (t ∉ specialIds) = true by simpa using hs), ih]
      · rw [if_pos (show decide (t ∉ specialIds) = true by simpa using hs),
          if_pos (show decide (t ∉ specialIds) = true by simpa using hs), ih]

/-- C6: an invariant preserved from preprocessing through loss computation
and decoding: label positions holding the ignore sentinel -100 contribute
nothing to the computed per-example cross-entropy sum (the sum only ranges
over non-sentinel positions, so it is unchanged by the content of sentinel
positions), and they produce no text in the decoded reference string (the
sentinel is replaced by a special token, which decoding skips). -/
theorem sentinel_positions_inert {β : Type} (ce : β → Int → ℚ)
    (lrow : List β) (trow : List Int) (padTokenId? : Option Int)
    (eosTokenId : Int) (specialIds : List Int) (tokenText : Int → String)
    (hmem : sentinelReplacement padTokenId? eosTokenId ∈ specialIds) :
    (crossEntropyNoReduction ce lrow trow).sum =
      (((lrow.zip trow).filter (fun p => decide (p.2 ≠ ignoreIndex))).map
        (fun p => ce p.1 p.2)).sum ∧
    decodeSkipSpecial specialIds tokenText
        (replaceSentinel padTokenId? eosTokenId trow) =
      decodeSkipSpecial specialIds tokenText
        (trow.filter (fun t => decide (t ≠ ignoreIndex))) := by
  refine ⟨crossEntropy_sum_filter ce lrow trow, ?_⟩
  unfold decodeSkipSpecial
  rw [replaceSentinel_filter padTokenId? eosTokenId specialIds trow hmem]

/-- Witness for C6: pad token id 0 (a special token), a concrete label row
with sentinel positions and a concrete logit row. -/
theorem sentinel_positions_inert_witness :
    (crossEntropyNoReduction (fun (l : Int) t => (l * t : ℚ))
        [2, 3, 4] [7, -100, -100]).sum =
      ((([2, 3, 4].zip [7, -100, -100]).filter
          (fun p => decide (p.2 ≠ ignoreIndex))).map
        (fun p => ((p.1 : ℚ) * (p.2 : ℚ)))).sum ∧
    decodeSkipSpecial [(0 : Int)] (fun _ => "x")
        (replaceSentinel (some 0) 2 [7, -100, -100]) =
      decodeSkipSpecial [(0 : Int)] (fun _ => "x")
        ([7, -100, -100].filter (fun t => decide (t ≠ ignoreIndex))) :=
  sentinel_positions_inert (fun (l : Int) t => (l * t : ℚ))
    [2, 3, 4] [7, -100, -100] (some 0) 2 [(0 : Int)] (fun _ => "x")
    (by decide)

/-- Reported value of one text-similarity metric: either a rational value or
the "nan" sentinel. -/
inductive MetricValue
  | val (q : ℚ)
  | nan
deriving DecidableEq

/-- Modelled from the spec: the formula of an n-gram/alignment-based metric
(computed inside the external metric library invoked by `compute_metrics`,
`train.py` lines 145-165; the formula itself is not under `src/`) divides a
match count by an alignment/total count and fails with a division-by-zero
error when the input is degenerate (empty overlap, zero denominator). -/
def metricFormula (numMatches total : Nat) : Except String ℚ :=
  if total = 0 then Except.error "division by zero"
  else Except.ok ((numMatches : ℚ) / (total : ℚ))

/-- Modelled from the spec: the metric computation wrapper catches the
division-by-zero error locally and reports that metric's value as the "nan"
sentinel instead of letting the exception escape `compute_metrics`. -/
def computeMetricValue (numMatches total : Nat) : MetricValue :=
  match metricFormula numMatches total with
  | Except.ok q => MetricValue.val q
  | Except.error _ => MetricValue.nan

/-- C5: on a degenerate input whose metric formula divides by zero, the
error is caught locally and the metric's value is reported as the "nan"
sentinel; on every input the computation returns a value (no exception
escapes, so the run is not aborted). -/
theorem computeMetricValue_nan (numMatches total : Nat) (h : total = 0) :
    computeMetricValue numMatches total = MetricValue.nan ∧
    ∀ m t : Nat, ∃ v : MetricValue, computeMetricValue m t = v := by
  constructor
  · simp [computeMetricValue, metricFormula, h]
  · intro m t
    exact ⟨computeMetricValue m t, rfl⟩

/-- Witness for C5: the degenerate input with 3 matches over an empty
alignment is reported as the "nan" sentinel. -/
theorem computeMetricValue_nan_witness :
    computeMetricValue 3 0 = MetricValue.nan :=
  (computeMetricValue_nan 3 0 rfl).1

/-- Shape of a numpy array, as its list of dimensions. -/
def squeeze (shape : List Nat) : List Nat :=
  shape.filter (fun d => decide (d ≠ 1))

/-- Shape of `feature_extractor(images, return_tensors="np").pixel_values`
for a batch of `n` images: `(n, 3, 224, 224)`. -/
def featureExtractorShape (n : Nat) : List Nat := [n, 3, 224, 224]

/-- Shape of the `pixel_values` entry returned by `preprocess_function`
(`pixel_values.squeeze()`, `predict.py` line 68 and `train.py` line 76). -/
def pixelValuesShape (n : Nat) : List Nat :=
  squeeze (featureExtractorShape n)

/-- C10: the `pixel_values` returned by the preprocessing transform have
every size-1 axis squeezed away: a batch of `n ≥ 2` examples keeps its
4-dimensional shape `(n, 3, 224, 224)`, but a singleton batch loses the
batch dimension and yields the 3-dimensional shape `(3, 224, 224)`. -/
theorem pixel_values_squeeze (n : Nat) (h2 : 2 ≤ n) :
    pixelValuesShape n = [n, 3, 224, 224] ∧
    pixelValuesShape 1 = [3, 224, 224] := by
  have hn : n ≠ 1 := by omega
  constructor
  · simp [pixelValuesShape, featureExtractorShape, squeeze, hn]
  · rfl

/-- Witness for C10: a batch of 2 examples keeps shape `(2, 3, 224, 224)`
while a singleton batch collapses to `(3, 224, 224)`. -/
theorem pixel_values_squeeze_witness :
    pixelValuesShape 2 = [2, 3, 224, 224] ∧
    pixelValuesShape 1 = [3, 224, 224] :=
  pixel_values_squeeze 2 (by decide)

/-- Mapping returned by `forward_pass_with_label` (`predict.py` lines
139-144) and materialized as the prediction DataFrame written to
`prediction.csv`: four parallel columns over the batch. -/
structure PredictionRecord where
  id : List Int
  loss : List ℚ
  predicted_labels : List String
  labels : List String
deriving DecidableEq

/-- Model of `forward_pass_with_label` (`predict.py` lines 112-144):
`generate` abstracts beam-search generation from the pixel values of one
example, `logitsOf` abstracts the decoder logits of `model(**inputs)`,
`ce` the cross-entropy formula. Predicted and reference id sequences are
decoded with special tokens skipped, references after sentinel replacement,
and the loss is the per-example sum of unreduced cross-entropy values. -/
def forward_pass_with_label {π β : Type} (generate : π → List Int)
    (specialIds : List Int) (tokenText : Int → String)
    (padTokenId? : Option Int) (eosTokenId : Int) (ce : β → Int → ℚ)
    (seqLen : Nat) (logitsOf : π → List β) (pixel_values : List π)
    (labels : List (List Int)) (ids : List Int) : PredictionRecord :=
  { id := ids
    loss := forward_pass_loss ce seqLen (pixel_values.map logitsOf) labels
    predicted_labels := pixel_values.map
      (fun pv => decodeSkipSpecial specialIds tokenText (generate pv))
    labels := (labels.map (replaceSentinel padTokenId? eosTokenId)).map
      (decodeSkipSpecial specialIds tokenText) }

/-- Columns of the CSV written by `pred_df.to_csv` (`predict.py` lines
146-161): the keys of the mapping returned by `forward_pass_with_label`
(`pixel_values` is removed by the map call). -/
def csvColumns : List String := ["id", "loss", "predicted_labels", "labels"]

/-- Rows of the prediction CSV: the four columns zipped example-wise. -/
def csvRows (r : PredictionRecord) : List (Int × ℚ × String × String) :=
  (r.id.zip (r.loss.zip (r.predicted_labels.zip r.labels))).map
    (fun p => (p.1, p.2.1, p.2.2.1, p.2.2.2))

theorem forward_pass_loss_length {α : Type} (ce : α → Int → ℚ)
    (seqLen : Nat) (logits : List (List α)) (labels : List (List Int)) :
    (forward_pass_loss ce seqLen logits labels).length = logits.length := by
  simp only [forward_pass_loss, List.length_map, List.length_range]

/-- C8: the prediction CSV has exactly the columns
`id, loss, predicted_labels, labels`, one row per evaluated example, and row
`i` maps the example's id to its scalar loss, predicted text and reference
text. -/
theorem prediction_csv_columns_rows {π β : Type} (generate : π → List Int)
    (specialIds : List Int) (tokenText : Int → String)
    (padTokenId? : Option Int) (eosTokenId : Int) (ce : β → Int → ℚ)
    (seqLen : Nat) (logitsOf : π → List β) (pixel_values : List π)
    (labels : List (List Int)) (ids : List Int) (n : Nat)
    (r : PredictionRecord)
    (hr : r = forward_pass_with_label generate specialIds tokenText
      padTokenId? eosTokenId ce seqLen logitsOf pixel_values labels ids)
    (hn1 : pixel_values.length = n) (hn2 : labels.length = n)
    (hn3 : ids.length = n) :
    csvColumns = ["id", "loss", "predicted_labels", "labels"] ∧
    (csvRows r).length = n ∧
    ∀ i : Nat, i < n → (csvRows r).getD i (0, 0, "", "") =
      (ids.getD i 0, r.loss.getD i 0, r.predicted_labels.getD i "",
        r.labels.getD i "") := by
  subst hr
  have hid : (forward_pass_with_label generate specialIds tokenText
      padTokenId? eosTokenId ce seqLen logitsOf pixel_values labels
      ids).id.length = n := hn3
  have hloss : (forward_pass_with_label generate specialIds tokenText
      padTokenId? eosTokenId ce seqLen logitsOf pixel_values labels
      ids).loss.length = n := by
    simp only [forward_pass_with_label, forward_pass_loss_length,
      List.length_map]
    exact hn1
  have hpred : (forward_pass_with_label generate specialIds tokenText
      padTokenId? eosTokenId ce seqLen logitsOf pixel_values labels
      ids).predicted_labels.length = n := by
    simp only [forward_pass_with_label, List.length_map]
    exact hn1
  have hlab : (forward_pass_with_label generate specialIds tokenText
      padTokenId? eosTokenId ce seqLen logitsOf pixel_values labels
      ids).labels.length = n := by
    simp only [forward_pass_with_label, List.length_map]
    exact hn2
  have hrows : (csvRows (forward_pass_with_label generate specialIds
      tokenText padTokenId? eosTokenId ce seqLen logitsOf pixel_values
      labels ids)).length = n := by
    simp only [csvRows, List.length_map, List.length_zip, hid, hloss,
      hpred, hlab, Nat.min_self]
  refine ⟨rfl, hrows, ?_⟩
  intro i hi
  have h1 : i < (csvRows (forward_pass_with_label generate specialIds
      tokenText padTokenId? eosTokenId ce seqLen logitsOf pixel_values
      labels ids)).length := by rw [hrows]; exact hi
  rw [List.getD_eq_getElem _ _ h1]
  have h2 : i < ((forward_pass_with_label generate specialIds tokenText
      padTokenId? eosTokenId ce seqLen logitsOf pixel_values labels
      ids).id.zip ((forward_pass_with_label generate specialIds tokenText
      padTokenId? eosTokenId ce seqLen logitsOf pixel_values labels
      ids).loss.zip ((forward_pass_with_label generate specialIds tokenText
      padTokenId? eosTokenId ce seqLen logitsOf pixel_values labels
      ids).predicted_labels.zip (forward_pass_with_label generate specialIds
      tokenText padTokenId? eosTokenId ce seqLen logitsOf pixel_values
      labels ids).labels))).length := by
    simpa only [csvRows, List.length_map] using h1
  simp only [csvRows, List.getElem_map, List.getElem_zip]
  rw [List.getD_eq_getElem _ _ (show i < ids.length by rw [hn3]; exact hi),
    List.getD_eq_getElem _ _ (show i < (forward_pass_with_label generate
      specialIds tokenText padTokenId? eosTokenId ce seqLen logitsOf
      pixel_values labels ids).loss.length by rw [hloss]; exact hi),
    List.getD_eq_getElem _ _ (show i < (forward_pass_with_label generate
      specialIds tokenText padTokenId? eosTokenId ce seqLen logitsOf
      pixel_values labels ids).predicted_labels.length by
        rw [hpred]; exact hi),
    List.getD_eq_getElem _ _ (show i < (forward_pass_with_label generate
      specialIds tokenText padTokenId? eosTokenId ce seqLen logitsOf
      pixel_values labels ids).labels.length by rw [hlab]; exact hi)]
  rfl

/-- Witness for C8: a concrete singleton batch; the CSV has the four
columns, one row, and that row pairs the id with its loss and texts. -/
theorem prediction_csv_columns_rows_witness :
    csvColumns = ["id", "loss", "predicted_labels", "labels"] ∧
    (csvRows (forward_pass_with_label (fun _ => [4]) [(0 : Int)]
      (fun _ => "y") (some 0) 2 (fun (l : Int) t => (l + t : ℚ)) 2
      (fun _ => [1, 1]) [(37 : Int)] [[5, -100]] [9])).length = 1 ∧
    (csvRows (forward_pass_with_label (fun _ => [4]) [(0 : Int)]
      (fun _ => "y") (some 0) 2 (fun (l : Int) t => (l + t : ℚ)) 2
      (fun _ => [1, 1]) [(37 : Int)] [[5, -100]] [9])).getD 0
        (0, 0, "", "") =
    (([9] : List Int).getD 0 0,
     (forward_pass_with_label (fun _ => [4]) [(0 : Int)]
       (fun _ => "y") (some 0) 2 (fun (l : Int) t => (l + t : ℚ)) 2
       (fun _ => [1, 1]) [(37 : Int)] [[5, -100]] [9]).loss.getD 0 0,
     (forward_pass_with_label (fun _ => [4]) [(0 : Int)]
       (fun _ => "y") (some 0) 2 (fun (l : Int) t => (l + t : ℚ)) 2
       (fun _ => [1, 1]) [(37 : Int)] [[5, -100]] [9]).predicted_labels.getD
         0 "",
     (forward_pass_with_label (fun _ => [4]) [(0 : Int)]
       (fun _ => "y") (some 0) 2 (fun (l : Int) t => (l + t : ℚ)) 2
       (fun _ => [1, 1]) [(37 : Int)] [[5, -100]] [9]).labels.getD 0 "") :=
  ⟨(prediction_csv_columns_rows (fun _ => [4]) [(0 : Int)] (fun _ => "y")
      (some 0) 2 (fun (l : Int) t => (l + t : ℚ)) 2 (fun _ => [1, 1])
      [(37 : Int)] [[5, -100]] [9] 1 _ rfl rfl rfl rfl).1,
   (prediction_csv_columns_rows (fun _ => [4]) [(0 : Int)] (fun _ => "y")
      (some 0) 2 (fun (l : Int) t => (l + t : ℚ)) 2 (fun _ => [1, 1])
      [(37 : Int)] [[5, -100]] [9] 1 _ rfl rfl rfl rfl).2.1,
   (prediction_csv_columns_rows (fun _ => [4]) [(0 : Int)] (fun _ => "y")
      (some 0) 2 (fun (l : Int) t => (l + t : ℚ)) 2 (fun _ => [1, 1])
      [(37 : Int)] [[5, -100]] [9] 1 _ rfl rfl rfl rfl).2.2 0 (by decide)⟩

/-- Raw example of the streaming dataset: an image, its caption text and a
numeric image id. The feature extraction of the image is folded into the
abstract `generate`/`logitsOf` functions that consume it. -/
structure RawExample (π : Type) where
  image : π
  caption : String
  image_id : Int

/-- Modelled from the spec: `seed_everything` is defined in
`image_captioning/utils.py`, which is not under `src/`; per the spec it
applies the single global random seed before any randomized operation, i.e.
it deterministically derives the random-number-generator state consumed by
every later randomized operation from the seed alone. -/
def seed_everything (seed : Int) : Int := seed

/-- Operations of the predict entry point in program order (`predict.py`
lines 209-211 then `main`): `seed_everything` runs in `__main__` before
`main`, which shuffles the streaming dataset with the same seed, maps the
preprocessing transform, runs the forward pass and writes the CSV. -/
inductive PipelineOp
  | seed_step (seed : Int)
  | shuffle (seed : Int)
  | map_preprocess
  | forward_pass
  | write_csv
deriving DecidableEq

/-- Program-order trace of one predict run with global seed `seed`. -/
def predictProgram (seed : Int) : List PipelineOp :=
  [PipelineOp.seed_step seed, PipelineOp.shuffle seed,
   PipelineOp.map_preprocess, PipelineOp.forward_pass,
   PipelineOp.write_csv]

/-- Whether an operation consumes randomness: the buffered shuffle is the
only randomized operation of the predict pipeline (generation runs with
`do_sample=False` and evaluation applies no dropout). -/
def isRandomized : PipelineOp → Bool
  | PipelineOp.shuffle _ => true
  | _ => false

/-- Pure composition of one predict run: seed the generators, shuffle the
streamed examples with the seeded state (the buffer shuffle of the dataset
library is abstracted as `shuffleFn`), preprocess captions into labels and
run the forward pass into the prediction record. -/
def runPredict {π β : Type}
    (shuffleFn : Int → List (RawExample π) → List (RawExample π))
    (encode : String → List Int) (padTokenId? : Option Int)
    (eosTokenId : Int) (specialIds : List Int) (tokenText : Int → String)
    (generate : π → List Int) (ce : β → Int → ℚ) (logitsOf : π → List β)
    (maxLen : Nat) (seed : Int) (data : List (RawExample π)) :
    PredictionRecord :=
  let shuffled := shuffleFn (seed_everything seed) data
  forward_pass_with_label generate specialIds tokenText padTokenId?
    eosTokenId ce maxLen logitsOf
    (shuffled.map (fun e => e.image))
    (preprocess_function encode padTokenId? maxLen
      (shuffled.map (fun e => e.caption)))
    (shuffled.map (fun e => e.image_id))

/-- C9: the global seed is applied before any randomized operation — the
first operation of the trace is the seeding step and the first randomized
operation (the shuffle) only comes at index 1 — and two runs with the same
configuration, the same seed and the same input data produce identical
outputs. -/
theorem predict_seeded_deterministic {π β : Type}
    (shuffleFn : Int → List (RawExample π) → List (RawExample π))
    (encode : String → List Int) (padTokenId? : Option Int)
    (eosTokenId : Int) (specialIds : List Int) (tokenText : Int → String)
    (generate : π → List Int) (ce : β → Int → ℚ) (logitsOf : π → List β)
    (maxLen : Nat) (seed₁ seed₂ : Int) (data₁ data₂ : List (RawExample π))
    (hseed : seed₁ = seed₂) (hdata : data₁ = data₂) :
    (predictProgram seed₁).getD 0 PipelineOp.write_csv =
      PipelineOp.seed_step seed₁ ∧
    (predictProgram seed₁).findIdx isRandomized = 1 ∧
    runPredict shuffleFn encode padTokenId? eosTokenId specialIds tokenText
        generate ce logitsOf maxLen seed₁ data₁ =
      runPredict shuffleFn encode padTokenId? eosTokenId specialIds tokenText
        generate ce logitsOf maxLen seed₂ data₂ := by
  subst hseed
  subst hdata
  exact ⟨rfl, rfl, rfl⟩

/-- Witness for C9: concrete seed and data; the trace starts with the
seeding step, the first randomized operation sits strictly after it, and the
two identically-configured runs agree. -/
theorem predict_seeded_deterministic_witness :
    (predictProgram 42).getD 0 PipelineOp.write_csv =
      PipelineOp.seed_step 42 ∧
    (predictProgram 42).findIdx isRandomized = 1 ∧
    runPredict (fun _ d => d.reverse) (fun s => [(s.length : Int)]) none 2
        [(2 : Int)] (fun _ => "z") (fun p => [p]) (fun (l : Int) t =>
          (l + t : ℚ)) (fun p => [p, p]) 2 42
        [⟨5, "ab", 11⟩, ⟨6, "c", 12⟩] =
      runPredict (fun _ d => d.reverse) (fun s => [(s.length : Int)]) none 2
        [(2 : Int)] (fun _ => "z") (fun p => [p]) (fun (l : Int) t =>
          (l + t : ℚ)) (fun p => [p, p]) 2 42
        [⟨5, "ab", 11⟩, ⟨6, "c", 12⟩] :=
  predict_seeded_deterministic (fun _ d => d.reverse)
    (fun s => [(s.length : Int)]) none 2 [(2 : Int)] (fun _ => "z")
    (fun p => [p]) (fun (l : Int) t => (l + t : ℚ)) (fun p => [p, p]) 2
    42 42 [⟨5, "ab", 11⟩, ⟨6, "c", 12⟩] [⟨5, "ab", 11⟩, ⟨6, "c", 12⟩]
    rfl rfl

end ImageCaptioning
